import Mathlib

/-!
Verification of the bounded LRU server-instance cache and the JSON-RPC
dispatch layer of the 3D Abstract Moodboard server.

The embedding follows the TypeScript source: the JavaScript `Map` backing
`LRUCache` is modelled as an association list in insertion order (JS maps
iterate in insertion order; overwriting a key keeps its position), and
`Date.now()` is modelled as an explicit `now : Nat` argument to every
operation that reads the clock.
-/

/-- A cache entry, `{ value: V; lastAccessed: number }` from the source. -/
structure CacheEntry (V : Type) where
  value : V
  lastAccessed : Nat
deriving Repr, DecidableEq

/-- The `LRUCache` state: the backing `Map` (as an insertion-ordered
association list) and the configured `maxSize`.  `maxSize` is an `Int`
because the constructor accepts any JavaScript number, including
non-positive ones. -/
structure LRUCache (K V : Type) where
  cache : List (K × CacheEntry V)
  maxSize : Int
deriving Repr, DecidableEq

variable {K V : Type} [DecidableEq K]

/-- `Map.prototype.get`: first entry with the given key, if any. -/
def mapLookup (k : K) : List (K × CacheEntry V) → Option (CacheEntry V)
  | [] => none
  | kv :: rest => if kv.1 = k then some kv.2 else mapLookup k rest

/-- `Map.prototype.set`: overwrite in place if the key is present
(keeping its position in iteration order), otherwise append. -/
def mapSet (k : K) (e : CacheEntry V) : List (K × CacheEntry V) → List (K × CacheEntry V)
  | [] => [(k, e)]
  | kv :: rest => if kv.1 = k then (k, e) :: rest else kv :: mapSet k e rest

/-- `Map.prototype.delete`: remove the entry with the given key (a JS map
holds at most one entry per key). -/
def mapDelete (k : K) : List (K × CacheEntry V) → List (K × CacheEntry V)
  | [] => []
  | kv :: rest => if kv.1 = k then rest else kv :: mapDelete k rest

/-- The `evictLRU` scan loop: walks the entries in iteration order carrying
the current `(oldestKey, oldestTime)` candidate, replacing it only on a
strictly smaller `lastAccessed`.  The initial accumulator `none` models
`oldestKey = undefined, oldestTime = Infinity`. -/
def evictScan (acc : Option (K × Nat)) : List (K × CacheEntry V) → Option (K × Nat)
  | [] => acc
  | kv :: rest =>
    match acc with
    | none => evictScan (some (kv.1, kv.2.lastAccessed)) rest
    | some (j, t) =>
      if kv.2.lastAccessed < t then evictScan (some (kv.1, kv.2.lastAccessed)) rest
      else evictScan (some (j, t)) rest

namespace LRUCache

/-- `constructor(maxSize)`: creates the empty map and stores `maxSize`
unchanged; the source performs no validation of the argument. -/
def empty (maxSize : Int) : LRUCache K V :=
  ⟨[], maxSize⟩

/-- `size` getter: `this.cache.size`. -/
def size (c : LRUCache K V) : Nat :=
  c.cache.length

/-- `has(key)`: pure membership check, no recency update. -/
def has (c : LRUCache K V) (key : K) : Bool :=
  (mapLookup key c.cache).isSome

/-- `get(key)`: on a hit, sets the entry's `lastAccessed` to the current
time and returns the value; on a miss returns `undefined`.  The mutated
cache is returned alongside the result. -/
def get (c : LRUCache K V) (key : K) (now : Nat) : Option V × LRUCache K V :=
  match mapLookup key c.cache with
  | some e => (some e.value, ⟨mapSet key ⟨e.value, now⟩ c.cache, c.maxSize⟩)
  | none => (none, c)

/-- `evictLRU()`: scan for the entry with the smallest `lastAccessed`
(first encountered wins on ties) and delete it; on an empty map the scan
finds no candidate and nothing is deleted. -/
def evictLRU (c : LRUCache K V) : LRUCache K V :=
  match evictScan none c.cache with
  | none => c
  | some (j, _) => ⟨mapDelete j c.cache, c.maxSize⟩

/-- `set(key, value)`: evict the least-recently-used entry first when the
map is at capacity and the key is new, then insert/overwrite with a fresh
`lastAccessed`. -/
def set (c : LRUCache K V) (key : K) (value : V) (now : Nat) : LRUCache K V :=
  let c₂ := if (c.size : Int) ≥ c.maxSize ∧ c.has key = false then c.evictLRU else c
  ⟨mapSet key ⟨value, now⟩ c₂.cache, c₂.maxSize⟩

end LRUCache

/-- One cache operation of the public surface, with the clock reading the
operation would make. -/
inductive CacheOp (K V : Type) where
  | getOp (k : K) (now : Nat)
  | setOp (k : K) (v : V) (now : Nat)
  | hasOp (k : K)
deriving Repr

/-- Apply one operation to the cache state (`has` does not mutate). -/
def applyOp (c : LRUCache K V) : CacheOp K V → LRUCache K V
  | .getOp k now => (c.get k now).2
  | .setOp k v now => c.set k v now
  | .hasOp _ => c

/-- Run a sequence of cache operations from a starting state. -/
def runOps (c : LRUCache K V) : List (CacheOp K V) → LRUCache K V
  | [] => c
  | op :: rest => runOps (applyOp c op) rest

/-- `getOrCreateServer`: return the cached instance on a hit (refreshing
recency); on a miss build a fresh instance, store it and return it.
`freshServer` stands for the `McpServer` the factory would construct. -/
def getOrCreateServer (cache : LRUCache String V) (freshServer : V) (userId : String)
    (now : Nat) : V × LRUCache String V :=
  match cache.get userId now with
  | (some cached, cache₂) => (cached, cache₂)
  | (none, cache₂) => (freshServer, cache₂.set userId freshServer now)

/-!
The JSON-RPC dispatch layer.  `await request.json()` either throws (the
`unparseable` case) or yields an object whose fields may each be absent,
so every request field is an `Option`.  The external collaborators —
`enhanceEmotionToThreeJS` (the AI code generator) and `loadHtml` (the
asset loader) — are passed in as their outcome for the request:
`Except String` models a JavaScript async throw.
-/

/-- The JSON-RPC `id` field: a number, a string, or absent. -/
inductive RpcId where
  | num (n : Int)
  | str (s : String)
  | missing
deriving Repr, DecidableEq

/-- A JSON-RPC error object, `{ code, message }`. -/
structure RpcError where
  code : Int
  message : String
deriving Repr, DecidableEq

/-- The `generate_mood_scene` result object `{ code, emotion, height }`. -/
structure MoodResult where
  code : String
  emotion : String
  height : Int
deriving Repr, DecidableEq

/-- The possible `result` payloads the method handlers build.  List-valued
payloads keep only the dispatch-relevant identifiers (tool names, resource
uris, prompt names); the descriptive metadata attached to them in the
source is static text that no handler branches on. -/
inductive RpcResult where
  | initializeResult (protocolVersion serverName serverVersion : String)
  | pingResult
  | toolsListResult (names : List String)
  | moodSceneResult (r : MoodResult)
  | moodSceneFailure (text : String)
  | primitivesDocResult (text : Option String)
  | resourcesListResult (uris : List String)
  | resourceContentsResult (uri : String) (text : String)
  | promptsListResult (names : List String)
deriving Repr, DecidableEq

/-- A serialized JSON-RPC response: the `id` plus either a `result` or an
`error` member. -/
structure JsonRpcOut where
  id : RpcId
  result : Option RpcResult
  error : Option RpcError
deriving Repr, DecidableEq

/-- `jsonRpcResponse(id, result, error?)`: sets the `error` member when an
error is given, otherwise the `result` member. -/
def jsonRpcResponse (id : RpcId) (result : Option RpcResult) (err : Option RpcError) :
    JsonRpcOut :=
  match err with
  | some e => ⟨id, none, some e⟩
  | none => ⟨id, result, none⟩

/-- The `arguments` object of a `tools/call` request; every field may be
absent. -/
structure ToolArgs where
  emotion : Option String
  complexity : Option Int
  height : Option Int
  category : Option String
deriving Repr, DecidableEq

/-- The `params` object of a request; the fields the handlers read. -/
structure ReqParams where
  name : Option String
  arguments : Option ToolArgs
  uri : Option String
deriving Repr, DecidableEq

/-- A parsed JSON-RPC request envelope; the cast in the source performs no
validation, so each field may be absent. -/
structure JsonRpcRequest where
  jsonrpc : Option String
  id : RpcId
  method : Option String
  params : Option ReqParams
deriving Repr, DecidableEq

/-- The raw body handed to the transport: either `request.json()` threw,
or it produced a request object. -/
inductive RawMessage where
  | unparseable (errMsg : String)
  | parsed (req : JsonRpcRequest)
deriving Repr, DecidableEq

/-- JavaScript `x || d` for an optional string: the empty string is falsy. -/
def jsOrString (x : Option String) (d : String) : String :=
  match x with
  | some s => if s = "" then d else s
  | none => d

/-- JavaScript `x || d` for an optional number: `0` is falsy. -/
def jsOrInt (x : Option Int) (d : Int) : Int :=
  match x with
  | some n => if n = 0 then d else n
  | none => d

/-- String interpolation of a possibly-undefined value, as in
`Method not found: ${method}`. -/
def showOptString : Option String → String
  | some s => s
  | none => "undefined"

/-- Server name constant. -/
def SERVER_NAME : String := "3D Abstract Moodboard"

/-- Server version constant. -/
def SERVER_VERSION : String := "1.0.0"

/-- `UI_RESOURCES.moodboard.uri` from the ui-resources registry. -/
def moodboardUri : String := "ui://3d-moodboard/moodboard.html"

/-- The `geometries` documentation text.  The markdown bodies of the
documentation table are opaque payload for the dispatcher, so they are
abbreviated to their headings here. -/
def geometriesDoc : String := "# Three.js Geometries for Abstract Art"

/-- The `materials` documentation text (abbreviated to its heading). -/
def materialsDoc : String := "# Three.js Materials for Mood Expression"

/-- The `lighting` documentation text (abbreviated to its heading). -/
def lightingDoc : String := "# Three.js Lighting for Atmosphere"

/-- The `animation` documentation text (abbreviated to its heading). -/
def animationDoc : String := "# Three.js Animation Patterns"

/-- The `all` documentation text: the concatenation built at module load,
mirroring the template literal in the source. -/
def allDoc : String :=
  "# Three.js Mood Primitives - Complete Reference\n\n" ++ geometriesDoc ++
    "\n\n---\n\n" ++ materialsDoc ++ "\n\n---\n\n" ++ lightingDoc ++
    "\n\n---\n\n" ++ animationDoc ++ "\n"

/-- `MOOD_PRIMITIVES_DOCUMENTATION[category]`: indexing the documentation
object with an arbitrary runtime string yields `undefined` for a key that
is not one of the five categories. -/
def MOOD_PRIMITIVES_DOCUMENTATION (category : String) : Option String :=
  if category = "geometries" then some geometriesDoc
  else if category = "materials" then some materialsDoc
  else if category = "lighting" then some lightingDoc
  else if category = "animation" then some animationDoc
  else if category = "all" then some allDoc
  else none

/-- `handleInitialize`. -/
def handleInitialize (id : RpcId) : JsonRpcOut :=
  jsonRpcResponse id (some (.initializeResult "2024-11-05" SERVER_NAME SERVER_VERSION)) none

/-- `handlePing`. -/
def handlePing (id : RpcId) : JsonRpcOut :=
  jsonRpcResponse id (some .pingResult) none

/-- `handleToolsList`: the fixed two-tool table. -/
def handleToolsList (id : RpcId) : JsonRpcOut :=
  jsonRpcResponse id (some (.toolsListResult ["generate_mood_scene", "learn_mood_primitives"])) none

/-- `handleToolsCall`: the JS `switch` on the tool name, embedded as the
equivalent sequential comparison.  Note that the `generate_mood_scene`
branch performs no schema validation: it defaults missing or falsy
arguments with `||` and calls the generation collaborator directly. -/
def handleToolsCall (id : RpcId) (params : Option ReqParams)
    (gen : String → Int → Except String String) : JsonRpcOut :=
  let name := params.bind (fun p => p.name)
  let args := params.bind (fun p => p.arguments)
  if name = some "generate_mood_scene" then
    let emotion := jsOrString (args.bind (fun a => a.emotion)) ""
    let complexity := jsOrInt (args.bind (fun a => a.complexity)) 5
    let height := jsOrInt (args.bind (fun a => a.height)) 600
    match gen emotion complexity with
    | .ok code => jsonRpcResponse id (some (.moodSceneResult ⟨code, emotion, height⟩)) none
    | .error msg => jsonRpcResponse id (some (.moodSceneFailure ("Error: " ++ msg))) none
  else if name = some "learn_mood_primitives" then
    let category := jsOrString (args.bind (fun a => a.category)) "all"
    jsonRpcResponse id (some (.primitivesDocResult (MOOD_PRIMITIVES_DOCUMENTATION category))) none
  else
    jsonRpcResponse id none (some ⟨-32602, "Unknown tool: " ++ showOptString name⟩)

/-- `handleResourcesList`. -/
def handleResourcesList (id : RpcId) : JsonRpcOut :=
  jsonRpcResponse id (some (.resourcesListResult [moodboardUri])) none

/-- `handleResourcesRead`: serves the moodboard asset, awaiting `loadHtml`.
`loadHtml` is not among the provided sources; per the spec it is the
`loadStaticResource` collaborator and may fail, so its outcome is the
`assets` argument and a failure propagates as a throw (`Except.error`). -/
def handleResourcesRead (id : RpcId) (params : Option ReqParams)
    (assets : Except String String) : Except String JsonRpcOut :=
  let uri := params.bind (fun p => p.uri)
  if uri = some moodboardUri then
    match assets with
    | .ok html => .ok (jsonRpcResponse id (some (.resourceContentsResult moodboardUri html)) none)
    | .error e => .error e
  else
    .ok (jsonRpcResponse id none (some ⟨-32602, "Unknown resource: " ++ showOptString uri⟩))

/-- `handlePromptsList`. -/
def handlePromptsList (id : RpcId) : JsonRpcOut :=
  jsonRpcResponse id (some (.promptsListResult ["visualize-feeling"])) none

/-- `handleHTTPTransport`: version check, then the JS `switch` on the
method name (embedded as sequential comparison).  The surrounding
`try/catch` turns any throw — an unparseable body or a handler rejection —
into a response with id `"error"` and code `-32700`.  The `server`,
`userId` and `userEmail` parameters of the source are not read by any
branch (they are used only in log lines) and are omitted. -/
def handleHTTPTransport (msg : RawMessage) (gen : String → Int → Except String String)
    (assets : Except String String) : JsonRpcOut :=
  match msg with
  | .unparseable m => jsonRpcResponse (.str "error") none (some ⟨-32700, "Parse error: " ++ m⟩)
  | .parsed req =>
    if req.jsonrpc ≠ some "2.0" then
      jsonRpcResponse req.id none (some ⟨-32600, "Invalid Request"⟩)
    else
      let body : Except String JsonRpcOut :=
        if req.method = some "initialize" then .ok (handleInitialize req.id)
        else if req.method = some "ping" then .ok (handlePing req.id)
        else if req.method = some "tools/list" then .ok (handleToolsList req.id)
        else if req.method = some "tools/call" then .ok (handleToolsCall req.id req.params gen)
        else if req.method = some "resources/list" then .ok (handleResourcesList req.id)
        else if req.method = some "resources/read" then handleResourcesRead req.id req.params assets
        else if req.method = some "prompts/list" then .ok (handlePromptsList req.id)
        else .ok (jsonRpcResponse req.id none
          (some ⟨-32601, "Method not found: " ++ showOptString req.method⟩))
      match body with
      | .ok out => out
      | .error e => jsonRpcResponse (.str "error") none (some ⟨-32700, "Parse error: " ++ e⟩)

/-- The outcome of `validateApiKey` plus the preceding header check. -/
inductive AuthOutcome where
  | missingHeader
  | invalidKey
  | valid (userId email : String)
deriving Repr, DecidableEq

/-- An HTTP-level response at the `handleApiKeyRequest` boundary: either a
plain JSON error body with a status code, or a JSON-RPC response. -/
inductive HttpOut where
  | jsonErrorOut (msg : String) (status : Int)
  | rpcOut (out : JsonRpcOut)
deriving Repr, DecidableEq

/-- `jsonError(message, status)`. -/
def jsonError (msg : String) (status : Int) : HttpOut :=
  .jsonErrorOut msg status

/-- `handleApiKeyRequest`: auth check, then — before the body is parsed —
`getOrCreateServer` (which reads and possibly mutates the cache), then the
endpoint check and the transport.  The mutated cache is returned alongside
the response. -/
def handleApiKeyRequest {V : Type} (auth : AuthOutcome) (pathname : String) (msg : RawMessage)
    (gen : String → Int → Except String String) (assets : Except String String)
    (freshServer : V) (now : Nat) (cache : LRUCache String V) :
    HttpOut × LRUCache String V :=
  match auth with
  | .missingHeader => (jsonError "Missing Authorization header" 401, cache)
  | .invalidKey => (jsonError "Invalid or expired API key" 401, cache)
  | .valid userId _email =>
    let sc := getOrCreateServer cache freshServer userId now
    if pathname = "/mcp" then (.rpcOut (handleHTTPTransport msg gen assets), sc.2)
    else (jsonError "Invalid endpoint. Use /mcp" 400, sc.2)

/-- The result object a registered SDK tool handler returns: a success
payload or a result flagged `isError: true`. -/
inductive SdkToolResult where
  | success (r : MoodResult)
  | errorResult (text : String)
deriving Repr, DecidableEq

/-- The `generate_mood_scene` handler body registered on the `McpServer`
(src/server.ts): destructuring defaults (which, unlike `||`, apply only to
absent fields), the guard throwing when no user id is bound, and the
`try/catch` converting a generation failure into an `isError` result.
The handler is only invoked with schema-validated arguments, so `emotion`
is present there; an absent `emotion` is embedded as the empty string. -/
def generateMoodSceneHandler (hasUserId : Bool) (args : ToolArgs)
    (gen : String → Int → Except String String) : Except String SdkToolResult :=
  if hasUserId = false then .error "User ID not found in authentication context"
  else
    let emotion := args.emotion.getD ""
    let complexity := args.complexity.getD 5
    let height := args.height.getD 600
    match gen emotion complexity with
    | .ok code => .ok (.success ⟨code, emotion, height⟩)
    | .error msg => .ok (.errorResult ("Error generating mood scene: " ++ msg))

/-- Modelled from the spec: the MCP SDK's tool invocation machinery (not
part of this repository) checks the declared zod inputSchema — `emotion:
z.string().min(1)`, `complexity: z.number().int().min(1).max(10).optional()`,
`height: z.number().int().positive().optional()` — and rejects the call
before the handler body executes when the arguments violate it. -/
def zodValidateMoodSceneInput (args : ToolArgs) : Bool :=
  (match args.emotion with
   | some s => decide (1 ≤ s.length)
   | none => false)
  && (match args.complexity with
      | some n => decide (1 ≤ n) && decide (n ≤ 10)
      | none => true)
  && (match args.height with
      | some n => decide (1 ≤ n)
      | none => true)

/-- Modelled from the spec: invoking the SDK-registered `generate_mood_scene`
tool first runs schema validation, then the handler body. -/
def sdkToolsCallGenerate (hasUserId : Bool) (args : ToolArgs)
    (gen : String → Int → Except String String) : Except String SdkToolResult :=
  if zodValidateMoodSceneInput args then generateMoodSceneHandler hasUserId args gen
  else .error "ValidationError: arguments do not satisfy the generate_mood_scene inputSchema"

/-!
Lemmas about the map primitives and the eviction scan.
-/

theorem mapLookup_mapSet_self (k : K) (e : CacheEntry V) (l : List (K × CacheEntry V)) :
    mapLookup k (mapSet k e l) = some e := by
  induction l with
  | nil => simp [mapSet, mapLookup]
  | cons kv rest ih =>
    by_cases h : kv.1 = k
    · simp [mapSet, mapLookup, h]
    · simp [mapSet, mapLookup, h, ih]

theorem mapLookup_mapSet_ne (k k₂ : K) (e : CacheEntry V) (l : List (K × CacheEntry V))
    (h : k₂ ≠ k) : mapLookup k₂ (mapSet k e l) = mapLookup k₂ l := by
  have hne : ¬ (k = k₂) := fun hh => h hh.symm
  induction l with
  | nil => simp [mapSet, mapLookup, hne]
  | cons kv rest ih =>
    by_cases hk : kv.1 = k
    · simp [mapSet, mapLookup, hk, hne]
    · simp [mapSet, mapLookup, hk, ih]

theorem length_mapSet_present (k : K) (e : CacheEntry V) (l : List (K × CacheEntry V))
    (h : (mapLookup k l).isSome) : (mapSet k e l).length = l.length := by
  induction l with
  | nil => simp [mapLookup] at h
  | cons kv rest ih =>
    by_cases hk : kv.1 = k
    · simp [mapSet, hk]
    · simp [mapLookup, hk] at h
      simp [mapSet, hk, ih h]

theorem length_mapSet_absent (k : K) (e : CacheEntry V) (l : List (K × CacheEntry V))
    (h : mapLookup k l = none) : (mapSet k e l).length = l.length + 1 := by
  induction l with
  | nil => simp [mapSet]
  | cons kv rest ih =>
    by_cases hk : kv.1 = k
    · simp [mapLookup, hk] at h
    · simp [mapLookup, hk] at h
      simp [mapSet, hk, ih h]

theorem mapLookup_mapDelete_absent (k j : K) (l : List (K × CacheEntry V))
    (h : mapLookup k l = none) : mapLookup k (mapDelete j l) = none := by
  induction l with
  | nil => simp [mapDelete, mapLookup]
  | cons kv rest ih =>
    by_cases hk : kv.1 = k
    · simp [mapLookup, hk] at h
    · simp [mapLookup, hk] at h
      by_cases hj : kv.1 = j
      · simpa [mapDelete, hj] using h
      · simp [mapDelete, hj, mapLookup, hk, ih h]

theorem length_mapDelete_present (j : K) (l : List (K × CacheEntry V))
    (h : (mapLookup j l).isSome) : (mapDelete j l).length + 1 = l.length := by
  induction l with
  | nil => simp [mapLookup] at h
  | cons kv rest ih =>
    by_cases hj : kv.1 = j
    · simp [mapDelete, hj]
    · simp [mapLookup, hj] at h
      simp [mapDelete, hj, ih h]

theorem mapLookup_isSome_of_mem (j : K) (e : CacheEntry V) (l : List (K × CacheEntry V))
    (h : (j, e) ∈ l) : (mapLookup j l).isSome := by
  induction l with
  | nil => simp at h
  | cons kv rest ih =>
    rcases List.mem_cons.1 h with h₁ | h₂
    · simp [mapLookup, ← h₁]
    · by_cases hj : kv.1 = j
      · simp [mapLookup, hj]
      · simp [mapLookup, hj, ih h₂]

/-- The entry the scan selects, described structurally: the first entry in
iteration order attaining the minimum `lastAccessed`. -/
def firstMin : List (K × CacheEntry V) → Option (K × Nat)
  | [] => none
  | kv :: rest =>
    match firstMin rest with
    | none => some (kv.1, kv.2.lastAccessed)
    | some (j, t) =>
      if kv.2.lastAccessed ≤ t then some (kv.1, kv.2.lastAccessed) else some (j, t)

theorem firstMin_cons (kv : K × CacheEntry V) (rest : List (K × CacheEntry V)) :
    firstMin (kv :: rest) =
      match firstMin rest with
      | none => some (kv.1, kv.2.lastAccessed)
      | some (j, t) =>
        if kv.2.lastAccessed ≤ t then some (kv.1, kv.2.lastAccessed) else some (j, t) := rfl

theorem evictScan_cons_none (kv : K × CacheEntry V) (rest : List (K × CacheEntry V)) :
    evictScan none (kv :: rest) = evictScan (some (kv.1, kv.2.lastAccessed)) rest := rfl

theorem evictScan_cons_some (j : K) (t : Nat) (kv : K × CacheEntry V)
    (rest : List (K × CacheEntry V)) :
    evictScan (some (j, t)) (kv :: rest) =
      if kv.2.lastAccessed < t then evictScan (some (kv.1, kv.2.lastAccessed)) rest
      else evictScan (some (j, t)) rest := rfl

theorem evictScan_some_acc (l : List (K × CacheEntry V)) (j₀ : K) (t₀ : Nat) :
    evictScan (some (j₀, t₀)) l =
      match firstMin l with
      | none => some (j₀, t₀)
      | some (j, t) => if t < t₀ then some (j, t) else some (j₀, t₀) := by
  induction l generalizing j₀ t₀ with
  | nil => rfl
  | cons kv rest ih =>
    rw [evictScan_cons_some]
    by_cases hlt : kv.2.lastAccessed < t₀
    · rw [if_pos hlt, ih, firstMin_cons]
      cases hfm : firstMin rest with
      | none => simp [hlt]
      | some jt =>
        rcases jt with ⟨j, t⟩
        by_cases hle : kv.2.lastAccessed ≤ t
        · simp only [hle, if_true]
          have h2 : ¬ t < kv.2.lastAccessed := by omega
          simp [h2, hlt]
        · simp only [hle, if_false]
          have h2 : t < kv.2.lastAccessed := by omega
          simp [h2, show t < t₀ by omega]
    · rw [if_neg hlt, ih, firstMin_cons]
      cases hfm : firstMin rest with
      | none => simp [hlt]
      | some jt =>
        rcases jt with ⟨j, t⟩
        by_cases hle : kv.2.lastAccessed ≤ t
        · have h3 : ¬ t < t₀ := by omega
          simp [hle, h3, hlt]
        · simp only [hle, if_false]

theorem evictScan_none_eq_firstMin (l : List (K × CacheEntry V)) :
    evictScan none l = firstMin l := by
  cases l with
  | nil => rfl
  | cons kv rest =>
    rw [evictScan_cons_none, evictScan_some_acc, firstMin_cons]
    cases hfm : firstMin rest with
    | none => rfl
    | some jt =>
      rcases jt with ⟨j, t⟩
      by_cases hle : kv.2.lastAccessed ≤ t
      · have hlt : ¬ t < kv.2.lastAccessed := by omega
        simp [hle, hlt]
      · have hlt : t < kv.2.lastAccessed := by omega
        simp [hle, hlt]

theorem firstMin_eq_none_iff (l : List (K × CacheEntry V)) :
    firstMin l = none ↔ l = [] := by
  cases l with
  | nil => simp [firstMin]
  | cons kv rest =>
    rw [firstMin_cons]
    cases firstMin rest with
    | none => simp
    | some jt =>
      rcases jt with ⟨j, t⟩
      by_cases hle : kv.2.lastAccessed ≤ t <;> simp [hle]

theorem firstMin_min (l : List (K × CacheEntry V)) (j : K) (t : Nat)
    (h : firstMin l = some (j, t)) : ∀ kv ∈ l, t ≤ kv.2.lastAccessed := by
  induction l generalizing j t with
  | nil => simp [firstMin] at h
  | cons kv rest ih =>
    cases hfm : firstMin rest with
    | none =>
      have hrest : rest = [] := (firstMin_eq_none_iff rest).1 hfm
      subst hrest
      simp only [firstMin_cons, firstMin, Option.some.injEq, Prod.mk.injEq] at h
      simp [← h.2]
    | some jt =>
      rcases jt with ⟨j₂, t₂⟩
      simp only [firstMin_cons, hfm] at h
      by_cases hle : kv.2.lastAccessed ≤ t₂
      · rw [if_pos hle] at h
        simp only [Option.some.injEq, Prod.mk.injEq] at h
        obtain ⟨-, ht⟩ := h
        intro kv₂ hmem
        rcases List.mem_cons.1 hmem with rfl | hmem₂
        · omega
        · have := ih j₂ t₂ hfm kv₂ hmem₂
          omega
      · rw [if_neg hle] at h
        simp only [Option.some.injEq, Prod.mk.injEq] at h
        obtain ⟨-, ht⟩ := h
        intro kv₂ hmem
        rcases List.mem_cons.1 hmem with rfl | hmem₂
        · omega
        · have := ih j₂ t₂ hfm kv₂ hmem₂
          omega

theorem firstMin_split (l : List (K × CacheEntry V)) (j : K) (t : Nat)
    (h : firstMin l = some (j, t)) :
    ∃ l₁ e l₂, l = l₁ ++ (j, e) :: l₂ ∧ e.lastAccessed = t ∧
      ∀ kv ∈ l₁, t < kv.2.lastAccessed := by
  induction l generalizing j t with
  | nil => simp [firstMin] at h
  | cons kv rest ih =>
    cases hfm : firstMin rest with
    | none =>
      simp only [firstMin_cons, hfm, Option.some.injEq, Prod.mk.injEq] at h
      obtain ⟨hj, ht⟩ := h
      exact ⟨[], kv.2, rest, by simp [← hj], ht, by simp⟩
    | some jt =>
      rcases jt with ⟨j₂, t₂⟩
      simp only [firstMin_cons, hfm] at h
      by_cases hle : kv.2.lastAccessed ≤ t₂
      · rw [if_pos hle] at h
        simp only [Option.some.injEq, Prod.mk.injEq] at h
        obtain ⟨hj, ht⟩ := h
        exact ⟨[], kv.2, rest, by simp [← hj], ht, by simp⟩
      · rw [if_neg hle] at h
        simp only [Option.some.injEq, Prod.mk.injEq] at h
        obtain ⟨hj, ht⟩ := h
        subst hj
        subst ht
        obtain ⟨l₁, e, l₂, hsplit, hla, hgt⟩ := ih j₂ t₂ hfm
        refine ⟨kv :: l₁, e, l₂, by simp [hsplit], hla, ?_⟩
        intro kv₂ hmem
        rcases List.mem_cons.1 hmem with rfl | hmem₂
        · omega
        · exact hgt kv₂ hmem₂

theorem mapDelete_append_of_ne (j : K) (e : CacheEntry V)
    (l₁ l₂ : List (K × CacheEntry V)) (h : ∀ kv ∈ l₁, kv.1 ≠ j) :
    mapDelete j (l₁ ++ (j, e) :: l₂) = l₁ ++ l₂ := by
  induction l₁ with
  | nil => simp [mapDelete]
  | cons kv rest ih =>
    have hne : kv.1 ≠ j := h kv (by simp)
    have ih₂ := ih (fun kv₂ hm => h kv₂ (by simp [hm]))
    simpa [mapDelete, hne] using ih₂

theorem evictLRU_maxSize (c : LRUCache K V) : c.evictLRU.maxSize = c.maxSize := by
  rw [LRUCache.evictLRU]
  cases evictScan none c.cache with
  | none => rfl
  | some jt => rcases jt with ⟨j, t⟩; rfl

theorem cache_nonempty_of_overflow (c : LRUCache K V) (h1 : (c.size : Int) ≥ c.maxSize)
    (h3 : 1 ≤ c.maxSize) : c.cache ≠ [] := by
  intro hnil
  rw [LRUCache.size, hnil] at h1
  simp at h1
  omega

/-!
Claim theorems about the cache.
-/

/-- C1: for every cache state and insertion of a new key that triggers
overflow, the entry the eviction step of `set` removes has minimal
`lastAccessed` among current entries; in particular, with capacity 2,
after inserting u1 and u2, touching u1 via `get`, then inserting u3, the
evicted key is u2. -/
theorem overflow_eviction_removes_least_recent :
    (∀ (c : LRUCache String Nat) (k : String) (v now : Nat),
      (c.size : Int) ≥ c.maxSize → c.has k = false → 1 ≤ c.maxSize →
      ∃ j t,
        evictScan none c.cache = some (j, t) ∧
        (∃ e, (j, e) ∈ c.cache ∧ e.lastAccessed = t) ∧
        (∀ kv ∈ c.cache, t ≤ kv.2.lastAccessed) ∧
        c.set k v now = ⟨mapSet k ⟨v, now⟩ (mapDelete j c.cache), c.maxSize⟩) ∧
    ((((((LRUCache.empty 2 : LRUCache String Nat).set "u1" 10 1).set "u2" 20 2).get
          "u1" 3).2.set "u3" 30 4).has "u2" = false ∧
      (((((LRUCache.empty 2 : LRUCache String Nat).set "u1" 10 1).set "u2" 20 2).get
          "u1" 3).2.set "u3" 30 4).has "u1" = true ∧
      (((((LRUCache.empty 2 : LRUCache String Nat).set "u1" 10 1).set "u2" 20 2).get
          "u1" 3).2.set "u3" 30 4).has "u3" = true ∧
      (((((LRUCache.empty 2 : LRUCache String Nat).set "u1" 10 1).set "u2" 20 2).get
          "u1" 3).2.set "u3" 30 4).size = 2) := by
  constructor
  · intro c k v now h1 h2 h3
    have hne : c.cache ≠ [] := cache_nonempty_of_overflow c h1 h3
    cases hfm : firstMin c.cache with
    | none => exact absurd ((firstMin_eq_none_iff c.cache).1 hfm) hne
    | some jt =>
      rcases jt with ⟨j, t⟩
      have hscan : evictScan none c.cache = some (j, t) := by
        rw [evictScan_none_eq_firstMin, hfm]
      obtain ⟨l₁, e, l₂, hsplit, hla, -⟩ := firstMin_split c.cache j t hfm
      refine ⟨j, t, hscan, ⟨e, by simp [hsplit], hla⟩, firstMin_min c.cache j t hfm, ?_⟩
      have hcond : ((c.size : Int) ≥ c.maxSize ∧ c.has k = false) := ⟨h1, h2⟩
      have hev : c.evictLRU = ⟨mapDelete j c.cache, c.maxSize⟩ := by
        simp [LRUCache.evictLRU, hscan]
      simp [LRUCache.set, if_pos hcond, hev]
  · exact ⟨by decide, by decide, by decide, by decide⟩

/-- Witness for C1 at a concrete two-entry cache at capacity. -/
theorem overflow_eviction_removes_least_recent_witness :
    (((⟨[("a", ⟨10, 5⟩), ("b", ⟨20, 3⟩)], 2⟩ : LRUCache String Nat).size : Int) ≥
        (⟨[("a", ⟨10, 5⟩), ("b", ⟨20, 3⟩)], 2⟩ : LRUCache String Nat).maxSize ∧
      (⟨[("a", ⟨10, 5⟩), ("b", ⟨20, 3⟩)], 2⟩ : LRUCache String Nat).has "c" = false ∧
      1 ≤ (⟨[("a", ⟨10, 5⟩), ("b", ⟨20, 3⟩)], 2⟩ : LRUCache String Nat).maxSize) ∧
    ∃ j t,
      evictScan none (⟨[("a", ⟨10, 5⟩), ("b", ⟨20, 3⟩)], 2⟩ : LRUCache String Nat).cache =
          some (j, t) ∧
      (∃ e, (j, e) ∈ (⟨[("a", ⟨10, 5⟩), ("b", ⟨20, 3⟩)], 2⟩ : LRUCache String Nat).cache ∧
          e.lastAccessed = t) ∧
      (∀ kv ∈ (⟨[("a", ⟨10, 5⟩), ("b", ⟨20, 3⟩)], 2⟩ : LRUCache String Nat).cache,
          t ≤ kv.2.lastAccessed) ∧
      (⟨[("a", ⟨10, 5⟩), ("b", ⟨20, 3⟩)], 2⟩ : LRUCache String Nat).set "c" 1 9 =
        ⟨mapSet "c" ⟨1, 9⟩
            (mapDelete j (⟨[("a", ⟨10, 5⟩), ("b", ⟨20, 3⟩)], 2⟩ : LRUCache String Nat).cache),
          (⟨[("a", ⟨10, 5⟩), ("b", ⟨20, 3⟩)], 2⟩ : LRUCache String Nat).maxSize⟩ :=
  ⟨⟨by decide, by decide, by decide⟩,
    overflow_eviction_removes_least_recent.1
      (⟨[("a", ⟨10, 5⟩), ("b", ⟨20, 3⟩)], 2⟩ : LRUCache String Nat) "c" 1 9
      (by decide) (by decide) (by decide)⟩

theorem has_eq_false_iff (c : LRUCache K V) (k : K) :
    c.has k = false ↔ mapLookup k c.cache = none := by
  rw [LRUCache.has]
  cases mapLookup k c.cache <;> simp

theorem size_applyOp (c : LRUCache K V) (op : CacheOp K V) (hcap : 1 ≤ c.maxSize)
    (h : (c.size : Int) ≤ c.maxSize) :
    ((applyOp c op).size : Int) ≤ c.maxSize ∧ (applyOp c op).maxSize = c.maxSize := by
  cases op with
  | hasOp k => exact ⟨h, rfl⟩
  | getOp k now =>
    simp only [applyOp, LRUCache.get]
    cases hl : mapLookup k c.cache with
    | none => exact ⟨h, rfl⟩
    | some e =>
      refine ⟨?_, rfl⟩
      show (((mapSet k ⟨e.value, now⟩ c.cache).length : Int)) ≤ c.maxSize
      rw [length_mapSet_present k _ c.cache (by simp [hl])]
      exact h
  | setOp k v now =>
    simp only [applyOp, LRUCache.set]
    by_cases hcond : ((c.size : Int) ≥ c.maxSize ∧ c.has k = false)
    · rw [if_pos hcond]
      obtain ⟨h1, h2⟩ := hcond
      have hne : c.cache ≠ [] := cache_nonempty_of_overflow c h1 hcap
      cases hfm : firstMin c.cache with
      | none => exact absurd ((firstMin_eq_none_iff c.cache).1 hfm) hne
      | some jt =>
        rcases jt with ⟨j, t⟩
        have hscan : evictScan none c.cache = some (j, t) := by
          rw [evictScan_none_eq_firstMin, hfm]
        have hev : c.evictLRU = ⟨mapDelete j c.cache, c.maxSize⟩ := by
          simp [LRUCache.evictLRU, hscan]
        rw [hev]
        refine ⟨?_, rfl⟩
        obtain ⟨l₁, e, l₂, hsplit, -, -⟩ := firstMin_split c.cache j t hfm
        have hjs : (mapLookup j c.cache).isSome :=
          mapLookup_isSome_of_mem j e c.cache (by simp [hsplit])
        have hlen := length_mapDelete_present j c.cache hjs
        have hkabs : mapLookup k c.cache = none := (has_eq_false_iff c k).1 h2
        have habs2 : mapLookup k (mapDelete j c.cache) = none :=
          mapLookup_mapDelete_absent k j c.cache hkabs
        show (((mapSet k ⟨v, now⟩ (mapDelete j c.cache)).length : Int)) ≤ c.maxSize
        rw [length_mapSet_absent k _ _ habs2]
        rw [LRUCache.size] at h
        omega
    · rw [if_neg hcond]
      refine ⟨?_, rfl⟩
      show (((mapSet k ⟨v, now⟩ c.cache).length : Int)) ≤ c.maxSize
      by_cases hk : (mapLookup k c.cache).isSome
      · rw [length_mapSet_present k _ c.cache hk]
        exact h
      · have hkabs : mapLookup k c.cache = none := by
          rwa [← Option.not_isSome_iff_eq_none]
        have h2 : c.has k = false := (has_eq_false_iff c k).2 hkabs
        have h1 : ¬ ((c.size : Int) ≥ c.maxSize) := fun hge => hcond ⟨hge, h2⟩
        rw [length_mapSet_absent k _ _ hkabs]
        rw [LRUCache.size] at h1
        omega

theorem size_runOps (ops : List (CacheOp K V)) (c : LRUCache K V) (hcap : 1 ≤ c.maxSize)
    (h : (c.size : Int) ≤ c.maxSize) :
    ((runOps c ops).size : Int) ≤ c.maxSize ∧ (runOps c ops).maxSize = c.maxSize := by
  induction ops generalizing c with
  | nil => exact ⟨h, rfl⟩
  | cons op rest ih =>
    obtain ⟨h₂, hmax⟩ := size_applyOp c op hcap h
    obtain ⟨ha, hb⟩ := ih (applyOp c op) (hmax ▸ hcap) (hmax ▸ h₂)
    exact ⟨hmax ▸ ha, hmax ▸ hb⟩

/-- C2: for every sequence of get, set and has operations starting from a
cache constructed with positive capacity, after each operation the entry
count satisfies size ≤ capacity. -/
theorem cache_size_bounded (cap : Int) (hcap : 1 ≤ cap) (ops : List (CacheOp String Nat))
    (n : Nat) : ((runOps (LRUCache.empty cap) (ops.take n)).size : Int) ≤ cap := by
  have hs : ((LRUCache.empty cap : LRUCache String Nat).size : Int) ≤ cap := by
    simp [LRUCache.size, LRUCache.empty]
    omega
  exact (size_runOps (ops.take n) (LRUCache.empty cap) hcap hs).1

/-- Witness for C2: four operations at capacity 2, checked after the fourth. -/
theorem cache_size_bounded_witness :
    (1 : Int) ≤ 2 ∧
    ((runOps (LRUCache.empty 2)
        ([CacheOp.setOp "u1" 10 1, CacheOp.setOp "u2" 20 2, CacheOp.getOp "u1" 3,
          CacheOp.setOp "u3" 30 4].take 4)).size : Int) ≤ 2 :=
  ⟨by decide,
    cache_size_bounded 2 (by decide)
      [CacheOp.setOp "u1" 10 1, CacheOp.setOp "u2" 20 2, CacheOp.getOp "u1" 3,
        CacheOp.setOp "u3" 30 4] 4⟩

/-- C5 counterexample: constructing the cache with maxSize 0 succeeds and
yields a usable cache — a set followed by a get returns the stored value. -/
theorem nonpositive_capacity_counterexample :
    (LRUCache.empty 0 : LRUCache String Nat).size = 0 ∧
    (LRUCache.empty 0 : LRUCache String Nat).maxSize = 0 ∧
    (((LRUCache.empty 0 : LRUCache String Nat).set "a" 7 1).get "a" 2).1 = some 7 := by
  decide

/-- C5 amended: the constructor performs no validation, so construction
with any non-positive capacity succeeds and produces a usable (empty)
cache rather than failing. -/
theorem nonpositive_capacity_not_rejected (m : Int) (hm : m ≤ 0) (k : String)
    (v t₁ t₂ : Nat) :
    (LRUCache.empty m : LRUCache String Nat).size = 0 ∧
    (LRUCache.empty m : LRUCache String Nat).maxSize = m ∧
    (((LRUCache.empty m : LRUCache String Nat).set k v t₁).get k t₂).1 = some v := by
  refine ⟨rfl, rfl, ?_⟩
  have hcond : (((LRUCache.empty m : LRUCache String Nat).size : Int) ≥ m ∧
      (LRUCache.empty m : LRUCache String Nat).has k = false) := by
    constructor
    · simp [LRUCache.size, LRUCache.empty]
      omega
    · simp [LRUCache.has, LRUCache.empty, mapLookup]
  simp [LRUCache.set, LRUCache.empty, hcond, LRUCache.evictLRU, evictScan, mapSet,
    LRUCache.get, mapLookup]

/-- Witness for C5 amended at capacity -3. -/
theorem nonpositive_capacity_not_rejected_witness :
    (-3 : Int) ≤ 0 ∧
    ((LRUCache.empty (-3) : LRUCache String Nat).size = 0 ∧
      (LRUCache.empty (-3) : LRUCache String Nat).maxSize = -3 ∧
      (((LRUCache.empty (-3) : LRUCache String Nat).set "a" 7 1).get "a" 2).1 = some 7) :=
  ⟨by decide, nonpositive_capacity_not_rejected (-3) (by decide) "a" 7 1 2⟩

/-- C6: a set for a key already present overwrites the entry and
refreshes its lastAccessed, never evicts (even at capacity): the map is
exactly the in-place overwrite, the size is unchanged and every other
key's entry is untouched. -/
theorem set_present_never_evicts (c : LRUCache String Nat) (k : String) (v now : Nat)
    (h : c.has k = true) :
    c.set k v now = ⟨mapSet k ⟨v, now⟩ c.cache, c.maxSize⟩ ∧
    mapLookup k (c.set k v now).cache = some ⟨v, now⟩ ∧
    (c.set k v now).size = c.size ∧
    ∀ k₂, k₂ ≠ k → mapLookup k₂ (c.set k v now).cache = mapLookup k₂ c.cache := by
  have hcond : ¬ (((c.size : Int) ≥ c.maxSize) ∧ c.has k = false) := by
    simp [h]
  have hset : c.set k v now = ⟨mapSet k ⟨v, now⟩ c.cache, c.maxSize⟩ := by
    simp [LRUCache.set, hcond]
  refine ⟨hset, ?_, ?_, ?_⟩
  · rw [hset]
    exact mapLookup_mapSet_self k ⟨v, now⟩ c.cache
  · rw [hset]
    show (mapSet k ⟨v, now⟩ c.cache).length = c.cache.length
    exact length_mapSet_present k _ c.cache (by simpa [LRUCache.has] using h)
  · intro k₂ hk
    rw [hset]
    exact mapLookup_mapSet_ne k k₂ ⟨v, now⟩ c.cache hk

/-- Witness for C6 at a concrete full cache. -/
theorem set_present_never_evicts_witness :
    (⟨[("a", ⟨10, 5⟩), ("b", ⟨20, 3⟩)], 2⟩ : LRUCache String Nat).has "b" = true ∧
    ((⟨[("a", ⟨10, 5⟩), ("b", ⟨20, 3⟩)], 2⟩ : LRUCache String Nat).set "b" 9 8 =
        ⟨mapSet "b" ⟨9, 8⟩ (⟨[("a", ⟨10, 5⟩), ("b", ⟨20, 3⟩)], 2⟩ :
            LRUCache String Nat).cache,
          (⟨[("a", ⟨10, 5⟩), ("b", ⟨20, 3⟩)], 2⟩ : LRUCache String Nat).maxSize⟩ ∧
      mapLookup "b" ((⟨[("a", ⟨10, 5⟩), ("b", ⟨20, 3⟩)], 2⟩ :
          LRUCache String Nat).set "b" 9 8).cache = some ⟨9, 8⟩ ∧
      ((⟨[("a", ⟨10, 5⟩), ("b", ⟨20, 3⟩)], 2⟩ : LRUCache String Nat).set "b" 9 8).size =
        (⟨[("a", ⟨10, 5⟩), ("b", ⟨20, 3⟩)], 2⟩ : LRUCache String Nat).size ∧
      ∀ k₂, k₂ ≠ "b" →
        mapLookup k₂ ((⟨[("a", ⟨10, 5⟩), ("b", ⟨20, 3⟩)], 2⟩ :
            LRUCache String Nat).set "b" 9 8).cache =
          mapLookup k₂ (⟨[("a", ⟨10, 5⟩), ("b", ⟨20, 3⟩)], 2⟩ :
            LRUCache String Nat).cache) :=
  ⟨by decide,
    set_present_never_evicts (⟨[("a", ⟨10, 5⟩), ("b", ⟨20, 3⟩)], 2⟩ : LRUCache String Nat)
      "b" 9 8 (by decide)⟩

/-- C9: for a key already cached, two immediate `getOrCreateServer` calls
return the identical cached instance, no construction result is stored,
no entry is evicted and the entry count is unchanged. -/
theorem repeated_get_identical (c : LRUCache String Nat) (key : String)
    (h : c.has key = true) (mk₁ mk₂ t₁ t₂ : Nat) :
    ∃ e, mapLookup key c.cache = some e ∧
      (getOrCreateServer c mk₁ key t₁).1 = e.value ∧
      (getOrCreateServer (getOrCreateServer c mk₁ key t₁).2 mk₂ key t₂).1 = e.value ∧
      (getOrCreateServer (getOrCreateServer c mk₁ key t₁).2 mk₂ key t₂).2.size = c.size ∧
      ∀ k₂, (getOrCreateServer (getOrCreateServer c mk₁ key t₁).2 mk₂ key t₂).2.has k₂ =
        c.has k₂ := by
  have hsome : (mapLookup key c.cache).isSome := by simpa [LRUCache.has] using h
  obtain ⟨e, he⟩ := Option.isSome_iff_exists.1 hsome
  have hg1 : getOrCreateServer c mk₁ key t₁ =
      (e.value, ⟨mapSet key ⟨e.value, t₁⟩ c.cache, c.maxSize⟩) := by
    simp [getOrCreateServer, LRUCache.get, he]
  have he2 : mapLookup key (mapSet key ⟨e.value, t₁⟩ c.cache) = some ⟨e.value, t₁⟩ :=
    mapLookup_mapSet_self key _ c.cache
  have hg2 : getOrCreateServer (⟨mapSet key ⟨e.value, t₁⟩ c.cache, c.maxSize⟩ :
      LRUCache String Nat) mk₂ key t₂ =
      (e.value, ⟨mapSet key ⟨e.value, t₂⟩ (mapSet key ⟨e.value, t₁⟩ c.cache),
        c.maxSize⟩) := by
    simp [getOrCreateServer, LRUCache.get, he2]
  refine ⟨e, he, by rw [hg1], by rw [hg1, hg2], ?_, ?_⟩
  · rw [hg1, hg2]
    show (mapSet key ⟨e.value, t₂⟩ (mapSet key ⟨e.value, t₁⟩ c.cache)).length =
      c.cache.length
    rw [length_mapSet_present key _ _ (by simp [he2]),
      length_mapSet_present key _ _ (by simp [he])]
  · intro k₂
    rw [hg1, hg2]
    by_cases hk : k₂ = key
    · subst hk
      rw [LRUCache.has]
      show (mapLookup k₂ (mapSet k₂ ⟨e.value, t₂⟩ _)).isSome = c.has k₂
      rw [mapLookup_mapSet_self, h]
      rfl
    · rw [LRUCache.has]
      show (mapLookup k₂ (mapSet key ⟨e.value, t₂⟩ (mapSet key ⟨e.value, t₁⟩
        c.cache))).isSome = c.has k₂
      rw [mapLookup_mapSet_ne key k₂ _ _ hk, mapLookup_mapSet_ne key k₂ _ _ hk]
      rfl

/-- Witness for C9 at a concrete cache holding the key. -/
theorem repeated_get_identical_witness :
    (⟨[("a", ⟨10, 5⟩), ("b", ⟨20, 3⟩)], 2⟩ : LRUCache String Nat).has "a" = true ∧
    ∃ e, mapLookup "a" (⟨[("a", ⟨10, 5⟩), ("b", ⟨20, 3⟩)], 2⟩ :
        LRUCache String Nat).cache = some e ∧
      (getOrCreateServer (⟨[("a", ⟨10, 5⟩), ("b", ⟨20, 3⟩)], 2⟩ : LRUCache String Nat)
          77 "a" 6).1 = e.value ∧
      (getOrCreateServer (getOrCreateServer (⟨[("a", ⟨10, 5⟩), ("b", ⟨20, 3⟩)], 2⟩ :
          LRUCache String Nat) 77 "a" 6).2 88 "a" 7).1 = e.value ∧
      (getOrCreateServer (getOrCreateServer (⟨[("a", ⟨10, 5⟩), ("b", ⟨20, 3⟩)], 2⟩ :
          LRUCache String Nat) 77 "a" 6).2 88 "a" 7).2.size =
        (⟨[("a", ⟨10, 5⟩), ("b", ⟨20, 3⟩)], 2⟩ : LRUCache String Nat).size ∧
      ∀ k₂, (getOrCreateServer (getOrCreateServer (⟨[("a", ⟨10, 5⟩), ("b", ⟨20, 3⟩)], 2⟩ :
          LRUCache String Nat) 77 "a" 6).2 88 "a" 7).2.has k₂ =
        (⟨[("a", ⟨10, 5⟩), ("b", ⟨20, 3⟩)], 2⟩ : LRUCache String Nat).has k₂ :=
  ⟨by decide,
    repeated_get_identical (⟨[("a", ⟨10, 5⟩), ("b", ⟨20, 3⟩)], 2⟩ : LRUCache String Nat)
      "a" (by decide) 77 88 6 7⟩

/-- C10: eviction tie-breaking is deterministic — the evicted entry is the
first entry in the map's iteration order whose lastAccessed attains the
minimum (the scan only replaces its candidate on a strictly smaller
timestamp) — and evicting from an empty cache removes nothing. -/
theorem eviction_tiebreak_first_in_order :
    (∀ c : LRUCache String Nat, c.cache = [] → c.evictLRU = c) ∧
    (∀ (c : LRUCache String Nat) (j : String) (t : Nat),
      (c.cache.map Prod.fst).Nodup →
      evictScan none c.cache = some (j, t) →
      ∃ l₁ e l₂,
        c.cache = l₁ ++ (j, e) :: l₂ ∧ e.lastAccessed = t ∧
        (∀ kv ∈ c.cache, t ≤ kv.2.lastAccessed) ∧
        (∀ kv ∈ l₁, t < kv.2.lastAccessed) ∧
        c.evictLRU = ⟨l₁ ++ l₂, c.maxSize⟩) := by
  constructor
  · intro c hc
    simp [LRUCache.evictLRU, hc, evictScan]
  · intro c j t hnd hscan
    have hfm : firstMin c.cache = some (j, t) := by
      rwa [evictScan_none_eq_firstMin] at hscan
    obtain ⟨l₁, e, l₂, hsplit, hla, hgt⟩ := firstMin_split c.cache j t hfm
    have hne : ∀ kv ∈ l₁, kv.1 ≠ j := by
      intro kv hm heq
      rw [hsplit, List.map_append, List.map_cons] at hnd
      have hdisj := (List.nodup_append.1 hnd).2.2
      exact hdisj (List.mem_map_of_mem Prod.fst hm) (by simp [heq])
    refine ⟨l₁, e, l₂, hsplit, hla, firstMin_min c.cache j t hfm, hgt, ?_⟩
    have hev : c.evictLRU = ⟨mapDelete j c.cache, c.maxSize⟩ := by
      simp [LRUCache.evictLRU, hscan]
    rw [hev, hsplit, mapDelete_append_of_ne j e l₁ l₂ hne]

/-- Witness for C10: the empty cache, and a three-entry cache with a tie
on the minimal timestamp where the first tied entry is selected. -/
theorem eviction_tiebreak_first_in_order_witness :
    ((LRUCache.empty 5 : LRUCache String Nat).cache = [] ∧
      (LRUCache.empty 5 : LRUCache String Nat).evictLRU = LRUCache.empty 5) ∧
    (((⟨[("a", ⟨10, 5⟩), ("b", ⟨20, 3⟩), ("c", ⟨30, 3⟩)], 5⟩ :
          LRUCache String Nat).cache.map Prod.fst).Nodup ∧
      evictScan none (⟨[("a", ⟨10, 5⟩), ("b", ⟨20, 3⟩), ("c", ⟨30, 3⟩)], 5⟩ :
          LRUCache String Nat).cache = some ("b", 3) ∧
      ∃ l₁ e l₂,
        (⟨[("a", ⟨10, 5⟩), ("b", ⟨20, 3⟩), ("c", ⟨30, 3⟩)], 5⟩ :
            LRUCache String Nat).cache = l₁ ++ ("b", e) :: l₂ ∧
        e.lastAccessed = 3 ∧
        (∀ kv ∈ (⟨[("a", ⟨10, 5⟩), ("b", ⟨20, 3⟩), ("c", ⟨30, 3⟩)], 5⟩ :
            LRUCache String Nat).cache, 3 ≤ kv.2.lastAccessed) ∧
        (∀ kv ∈ l₁, 3 < kv.2.lastAccessed) ∧
        (⟨[("a", ⟨10, 5⟩), ("b", ⟨20, 3⟩), ("c", ⟨30, 3⟩)], 5⟩ :
            LRUCache String Nat).evictLRU =
          ⟨l₁ ++ l₂, (⟨[("a", ⟨10, 5⟩), ("b", ⟨20, 3⟩), ("c", ⟨30, 3⟩)], 5⟩ :
            LRUCache String Nat).maxSize⟩) :=
  ⟨⟨rfl, eviction_tiebreak_first_in_order.1 (LRUCache.empty 5) rfl⟩,
    ⟨by decide, by decide,
      eviction_tiebreak_first_in_order.2
        (⟨[("a", ⟨10, 5⟩), ("b", ⟨20, 3⟩), ("c", ⟨30, 3⟩)], 5⟩ : LRUCache String Nat)
        "b" 3 (by decide) (by decide)⟩⟩

theorem jsonRpcResponse_id (id : RpcId) (r : Option RpcResult) (e : Option RpcError) :
    (jsonRpcResponse id r e).id = id := by
  cases e <;> rfl

/-- C8: the generation method called with subject "calm" and intensity 3
against a stub generation collaborator returning the fixed text "X" yields
result code "X", the subject echoed unchanged, and the omitted size
defaulting to 600 — on the raw HTTP dispatcher and on the SDK handler. -/
theorem generate_calm_stub_result :
    handleToolsCall (.num 1)
        (some ⟨some "generate_mood_scene", some ⟨some "calm", some 3, none, none⟩, none⟩)
        (fun _ _ => .ok "X") =
      ⟨.num 1, some (.moodSceneResult ⟨"X", "calm", 600⟩), none⟩ ∧
    sdkToolsCallGenerate true ⟨some "calm", some 3, none, none⟩ (fun _ _ => .ok "X") =
      .ok (.success ⟨"X", "calm", 600⟩) := by
  constructor <;> rfl

/-- C4 counterexample: on the raw HTTP dispatcher, a generation call with
subject "" is not rejected — the generation collaborator is invoked (its
output appears in the response) and a normal success result is returned,
not a validation error. -/
theorem empty_subject_counterexample :
    handleToolsCall (.num 1)
        (some ⟨some "generate_mood_scene", some ⟨some "", none, none, none⟩, none⟩)
        (fun _ _ => .ok "GEN") =
      ⟨.num 1, some (.moodSceneResult ⟨"GEN", "", 600⟩), none⟩ ∧
    handleToolsCall (.num 1)
        (some ⟨some "generate_mood_scene", some ⟨some "", none, none, none⟩, none⟩)
        (fun _ _ => .ok "OTHER") =
      ⟨.num 1, some (.moodSceneResult ⟨"OTHER", "", 600⟩), none⟩ := by
  constructor <;> rfl

/-- C4 amended: only the SDK tool path validates the schema before the
handler — there a call with subject "" fails validation and the
collaborator is never invoked (the outcome is independent of it) — while
the raw HTTP dispatcher performs no schema validation and passes the empty
subject straight to the generation collaborator, returning its output as a
success result. -/
theorem empty_subject_validation_split :
    (∀ (gen : String → Int → Except String String) (hasUserId : Bool),
      sdkToolsCallGenerate hasUserId ⟨some "", none, none, none⟩ gen =
        .error
          "ValidationError: arguments do not satisfy the generate_mood_scene inputSchema") ∧
    (∀ code : String,
      handleToolsCall (.num 1)
          (some ⟨some "generate_mood_scene", some ⟨some "", none, none, none⟩, none⟩)
          (fun _ _ => .ok code) =
        ⟨.num 1, some (.moodSceneResult ⟨code, "", 600⟩), none⟩) := by
  constructor
  · intro gen hasUserId
    rfl
  · intro code
    rfl

/-- C3 counterexample: a request with valid auth but a malformed envelope
(wrong protocol version) is answered with the protocol error, yet the
cache is mutated: starting from the empty cache, the authenticated user's
freshly built instance has been stored by the time the response is
produced. -/
theorem malformed_envelope_counterexample :
    (handleApiKeyRequest (.valid "u1" "u1@example.com") "/mcp"
        (.parsed ⟨some "1.0", .num 1, some "tools/list", none⟩)
        (fun _ _ => .ok "code") (.ok "html") 5 0
        (LRUCache.empty 100 : LRUCache String Nat)).1 =
      .rpcOut ⟨.num 1, none, some ⟨-32600, "Invalid Request"⟩⟩ ∧
    (handleApiKeyRequest (.valid "u1" "u1@example.com") "/mcp"
        (.parsed ⟨some "1.0", .num 1, some "tools/list", none⟩)
        (fun _ _ => .ok "code") (.ok "html") 5 0
        (LRUCache.empty 100 : LRUCache String Nat)).2.size = 1 ∧
    (handleApiKeyRequest (.valid "u1" "u1@example.com") "/mcp"
        (.parsed ⟨some "1.0", .num 1, some "tools/list", none⟩)
        (fun _ _ => .ok "code") (.ok "html") 5 0
        (LRUCache.empty 100 : LRUCache String Nat)).2 ≠ LRUCache.empty 100 := by
  refine ⟨rfl, rfl, ?_⟩
  decide

/-- C3 amended: a malformed envelope is answered with the protocol-level
"Invalid Request" error, but the cache is not left untouched — the
resulting cache state is exactly the state after `getOrCreateServer` for
the authenticated identity, which runs before the envelope is parsed. -/
theorem malformed_envelope_error_after_cache_touch (cache : LRUCache String Nat)
    (userId email : String) (req : JsonRpcRequest)
    (gen : String → Int → Except String String) (assets : Except String String)
    (fresh : Nat) (now : Nat) (h : req.jsonrpc ≠ some "2.0") :
    (handleApiKeyRequest (.valid userId email) "/mcp" (.parsed req) gen assets fresh now
        cache).1 = .rpcOut ⟨req.id, none, some ⟨-32600, "Invalid Request"⟩⟩ ∧
    (handleApiKeyRequest (.valid userId email) "/mcp" (.parsed req) gen assets fresh now
        cache).2 = (getOrCreateServer cache fresh userId now).2 := by
  constructor
  · simp [handleApiKeyRequest, handleHTTPTransport, h, jsonRpcResponse]
  · simp [handleApiKeyRequest]

/-- Witness for C3 amended at a concrete malformed request. -/
theorem malformed_envelope_error_after_cache_touch_witness :
    (⟨some "1.0", RpcId.num 1, some "tools/list", none⟩ : JsonRpcRequest).jsonrpc ≠
        some "2.0" ∧
    ((handleApiKeyRequest (.valid "u1" "u1@example.com") "/mcp"
          (.parsed ⟨some "1.0", .num 1, some "tools/list", none⟩)
          (fun _ _ => .ok "code") (.ok "html") 5 0
          (LRUCache.empty 100 : LRUCache String Nat)).1 =
        .rpcOut ⟨(⟨some "1.0", RpcId.num 1, some "tools/list", none⟩ :
            JsonRpcRequest).id, none, some ⟨-32600, "Invalid Request"⟩⟩ ∧
      (handleApiKeyRequest (.valid "u1" "u1@example.com") "/mcp"
          (.parsed ⟨some "1.0", .num 1, some "tools/list", none⟩)
          (fun _ _ => .ok "code") (.ok "html") 5 0
          (LRUCache.empty 100 : LRUCache String Nat)).2 =
        (getOrCreateServer (LRUCache.empty 100 : LRUCache String Nat) 5 "u1" 0).2) :=
  ⟨by decide,
    malformed_envelope_error_after_cache_touch (LRUCache.empty 100) "u1" "u1@example.com"
      ⟨some "1.0", .num 1, some "tools/list", none⟩ (fun _ _ => .ok "code") (.ok "html")
      5 0 (by decide)⟩

theorem handleToolsCall_id (id : RpcId) (params : Option ReqParams)
    (gen : String → Int → Except String String) :
    (handleToolsCall id params gen).id = id := by
  simp only [handleToolsCall]
  split_ifs
  · cases gen (jsOrString ((params.bind fun p => p.arguments).bind fun a => a.emotion) "")
        (jsOrInt ((params.bind fun p => p.arguments).bind fun a => a.complexity) 5) with
    | ok code => exact jsonRpcResponse_id id _ none
    | error msg => exact jsonRpcResponse_id id _ none
  · exact jsonRpcResponse_id id _ none
  · exact jsonRpcResponse_id id _ _

/-- C7 counterexample: a parseable `resources/read` request whose asset
loader fails (a failing-collaborator error kind) is answered by the
transport-level catch with the fixed id "error" and a parse-error code,
not with the request's id. -/
theorem collaborator_failure_id_counterexample :
    (handleHTTPTransport
        (.parsed ⟨some "2.0", .num 7, some "resources/read",
          some ⟨none, none, some moodboardUri⟩⟩)
        (fun _ _ => .ok "c") (.error "boom")) =
      ⟨.str "error", none, some ⟨-32700, "Parse error: boom"⟩⟩ ∧
    (handleHTTPTransport
        (.parsed ⟨some "2.0", .num 7, some "resources/read",
          some ⟨none, none, some moodboardUri⟩⟩)
        (fun _ _ => .ok "c") (.error "boom")).id ≠ .num 7 := by
  constructor
  · rfl
  · decide

/-- C7 amended: dispatch always returns exactly one structured JSON-RPC
response; for a parseable request the id echoes the request's id in every
branch — malformed envelope, unknown method, unknown tool, failing
generation collaborator, handler results — except that an exception
escaping a handler (the asset loader failing during `resources/read`) is
caught at the transport boundary and answered under the fixed id "error";
an unparseable input is likewise answered under id "error". -/
theorem dispatch_total_response_id :
    (∀ (msg : RawMessage) (gen : String → Int → Except String String)
        (assets : Except String String),
      ∃! out, handleHTTPTransport msg gen assets = out) ∧
    (∀ (m : String) (gen : String → Int → Except String String)
        (assets : Except String String),
      handleHTTPTransport (.unparseable m) gen assets =
        ⟨.str "error", none, some ⟨-32700, "Parse error: " ++ m⟩⟩) ∧
    (∀ (req : JsonRpcRequest) (gen : String → Int → Except String String)
        (assets : Except String String),
      (handleHTTPTransport (.parsed req) gen assets).id = req.id ∨
      ((handleHTTPTransport (.parsed req) gen assets).id = .str "error" ∧
        req.method = some "resources/read" ∧
        req.params.bind (fun p => p.uri) = some moodboardUri ∧
        ∃ e, assets = .error e)) := by
  refine ⟨fun msg gen assets => ⟨handleHTTPTransport msg gen assets, rfl,
    fun y hy => hy.symm⟩, fun m gen assets => rfl, ?_⟩
  intro req gen assets
  simp only [handleHTTPTransport]
  by_cases hv : req.jsonrpc ≠ some "2.0"
  · left
    rw [if_pos hv]
    exact jsonRpcResponse_id req.id none _
  · rw [if_neg hv]
    by_cases h1 : req.method = some "initialize"
    · left; simp [h1, handleInitialize, jsonRpcResponse]
    by_cases h2 : req.method = some "ping"
    · left; simp [h1, h2, handlePing, jsonRpcResponse]
    by_cases h3 : req.method = some "tools/list"
    · left; simp [h1, h2, h3, handleToolsList, jsonRpcResponse]
    by_cases h4 : req.method = some "tools/call"
    · left; simp [h1, h2, h3, h4, handleToolsCall_id]
    by_cases h5 : req.method = some "resources/list"
    · left; simp [h1, h2, h3, h4, h5, handleResourcesList, jsonRpcResponse]
    by_cases h6 : req.method = some "resources/read"
    · simp only [h1, h2, h3, h4, h5, h6, if_false, if_true, handleResourcesRead]
      by_cases hu : req.params.bind (fun p => p.uri) = some moodboardUri
      · cases assets with
        | ok html => left; simp [hu, jsonRpcResponse]
        | error e =>
          right
          refine ⟨?_, ?_, hu, e, rfl⟩
          · simp [hu, jsonRpcResponse]
          · simp [h6]
      · left; simp [hu, jsonRpcResponse]
    by_cases h7 : req.method = some "prompts/list"
    · left; simp [h1, h2, h3, h4, h5, h6, h7, handlePromptsList, jsonRpcResponse]
    · left; simp [h1, h2, h3, h4, h5, h6, h7, jsonRpcResponse]
